import Mathlib

/-!
Verification development for the Anvil neural-architecture-search engine
(package `blueprint`).  The Go sources are shallowly embedded:

* `float64` values are idealised as `ℚ`.  The transcendental library
  functions `math.Exp`, `math.Sqrt`, `math.Tanh` are not rational, so the
  whole embedding is parametric in a record `RealOps` carrying those three
  maps; every theorem that does not depend on their analytic properties is
  proved for an arbitrary `RealOps`.  Division by zero yields `0` in `ℚ`
  (Go would yield `NaN`/`Inf`); places where this matters are flagged.
* Go maps (`map[int]*Neuron`, `map[int]float64`, `map[string][]float64`)
  are idealised as association lists with the keys in some fixed order;
  Go randomises map iteration order, so results that depend on iteration
  order are stated for the embedded order.
* Go slices written through pointers are modelled either purely (the
  value-level model `Blueprint`) or, for the aliasing claim about
  `Clone`, by a tagged model (`HBlueprint`) in which every mutable slice
  carries an allocation tag and a heap write is addressed by tag.
* A Go runtime panic (index out of range, `make` with negative length)
  is modelled by `Option`/`none`.
* `math/rand` draws are modelled by explicit streams `ℕ → ℚ` / `ℕ → ℕ`
  with a threaded draw counter.
-/

namespace Anvil

/-- Record of the transcendental `math` package functions used by the source
(`math.Exp`, `math.Sqrt`, `math.Tanh`); the embedding is parametric in it. -/
structure RealOps where
  exp : ℚ → ℚ
  sqrt : ℚ → ℚ
  tanh : ℚ → ℚ

/-- A fixed instance of `RealOps` used to state closed (fully concrete)
counterexamples and witnesses; the facts instantiated with it do not depend
on the analytic properties of the three maps. -/
def ops0 : RealOps where
  exp := fun x => x
  sqrt := fun x => x
  tanh := fun x => x

/-- ReLU activation (utils.go `ReLU`): `math.Max(0, x)`. -/
def goReLU (x : ℚ) : ℚ := max 0 x

/-- Sigmoid activation (utils.go `Sigmoid`): `1 / (1 + exp(-x))`. -/
def goSigmoid (ops : RealOps) (x : ℚ) : ℚ := 1 / (1 + ops.exp (-x))

/-- Tanh activation (utils.go `Tanh`): `math.Tanh(x)`. -/
def goTanh (ops : RealOps) (x : ℚ) : ℚ := ops.tanh x

/-- LeakyReLU activation (utils.go `LeakyReLU`). -/
def goLeakyReLU (x : ℚ) : ℚ := if x > 0 then x else (1 / 100) * x

/-- ELU activation (utils.go `ELU`). -/
def goELU (ops : RealOps) (x : ℚ) : ℚ := if x ≥ 0 then x else 1 * (ops.exp x - 1)

/-- Linear activation (utils.go `Linear`): the identity. -/
def goLinear (x : ℚ) : ℚ := x

/-- The registry of scalar activation functions
(utils.go `scalarActivationFunctions`), keyed by name. -/
def scalarActivationFunctions (ops : RealOps) : List (String × (ℚ → ℚ)) :=
  [("relu", goReLU), ("sigmoid", goSigmoid ops), ("tanh", goTanh ops),
   ("leaky_relu", goLeakyReLU), ("elu", goELU ops), ("linear", goLinear)]

/-- A neuron (neuron.go `Neuron`), restricted to the fields the embedded
operations read.  `connections` is the fan-in list of
(source node ID, weight) pairs; Go stores each pair as a `[]float64`
whose first entry is the ID converted through `float64`/`int`, idealised
here as `ℤ`. -/
structure BatchNormParams where
  gamma : ℚ
  beta : ℚ
  mean : ℚ
  variance : ℚ
deriving DecidableEq

structure Neuron where
  nid : ℤ
  ty : String
  value : ℚ
  bias : ℚ
  connections : List (ℤ × ℚ)
  activation : String
  dropoutRate : ℚ
  cellState : ℚ
  gateWeights : List (String × List ℚ)
  kernels : List (List ℚ)
  attention : Bool
  batchNormParams : Option BatchNormParams
  ncaState : List ℚ
  neighborhoodIDs : List ℤ
  updateRules : String
deriving DecidableEq

/-- The zero value of `Neuron`, used to write concrete neurons concisely. -/
def defaultNeuron : Neuron where
  nid := 0
  ty := ""
  value := 0
  bias := 0
  connections := []
  activation := ""
  dropoutRate := 0
  cellState := 0
  gateWeights := []
  kernels := []
  attention := false
  batchNormParams := none
  ncaState := []
  neighborhoodIDs := []
  updateRules := ""

/-- The network graph (blueprint.go `Blueprint`).  `scalarActivationMap`
is `none` when the Go field is a nil map (its JSON tag is `-`, so it is
dropped by serialization); quantum neurons and the debug flag play no role
in the claims and are omitted. -/
structure Blueprint where
  neurons : List (ℤ × Neuron)
  inputNodes : List ℤ
  outputNodes : List ℤ
  scalarActivationMap : Option (List (String × (ℚ → ℚ)))

/-- Looks a neuron up in the node table (Go map indexing `bp.Neurons[id]`). -/
def lookupNeuron (tbl : List (ℤ × Neuron)) (id : ℤ) : Option Neuron :=
  tbl.lookup id

/-- Writes a neuron value back through its table entry (the Go table stores
pointers, so a field update through the pointer is an update of the entry). -/
def setNeuron (tbl : List (ℤ × Neuron)) (id : ℤ) (n : Neuron) :
    List (ℤ × Neuron) :=
  tbl.map (fun p => if p.1 = id then (p.1, n) else p)

/-- ApplyScalarActivation (blueprint.go): look the name up in the registry,
fall back to `Linear` (the identity) when the registry is nil or the name is
unknown, with only a diagnostic. -/
def applyScalarActivation (bp : Blueprint) (value : ℚ) (activation : String) : ℚ :=
  match bp.scalarActivationMap with
  | none => goLinear value
  | some reg =>
    match reg.lookup activation with
    | some f => f value
    | none => goLinear value

/-- ProcessDenseNeuron (neuron.go): `bias + Σ inputs`, then activation. -/
def processDenseNeuron (bp : Blueprint) (n : Neuron) (inputs : List ℚ) : Neuron :=
  { n with value := applyScalarActivation bp (inputs.foldl (· + ·) n.bias) n.activation }

/-- ProcessRNNNeuron (neuron.go): dense plus the previous value with implicit
unit self-weight, then activation. -/
def processRNNNeuron (bp : Blueprint) (n : Neuron) (inputs : List ℚ) : Neuron :=
  { n with value :=
      applyScalarActivation bp (inputs.foldl (· + ·) n.bias + n.value * 1) n.activation }

/-- Reads a gate-weight vector out of the `GateWeights` map; a nil Go map
yields a nil slice, i.e. the empty list. -/
def gateVec (n : Neuron) (name : String) : List ℚ :=
  (n.gateWeights.lookup name).getD []

/-- Dot product of a fan-in prefix against a gate-weight vector; indexing
past the end of the vector is a Go panic, modelled by `none`
(mirrors the loop `for i := 0; i < inputSize; i++ { g += inputs[i]*w[i] }`). -/
def gateSum (ws : List ℚ) (inputs : List ℚ) : Option ℚ :=
  inputs.foldl
    (fun acc p =>
      match acc with
      | none => none
      | some ⟨s, i⟩ =>
        match ws.get? i with
        | none => none
        | some w => some ⟨s + p * w, i + 1⟩)
    (some ((0 : ℚ), (0 : ℕ))) |>.map (·.1)

/-- ProcessLSTMNeuron (neuron.go): four gate pre-activations, sigmoid on
input/forget/output, tanh on the candidate cell input, cell-state update,
output `tanh(cellState) * outputGate`. -/
def processLSTMNeuron (ops : RealOps) (n : Neuron) (inputs : List ℚ) : Option Neuron :=
  match gateSum (gateVec n "input") inputs, gateSum (gateVec n "forget") inputs,
      gateSum (gateVec n "output") inputs, gateSum (gateVec n "cell") inputs with
  | some ig, some fg, some og, some ci =>
    let inputGate := goSigmoid ops (ig + n.bias)
    let forgetGate := goSigmoid ops (fg + n.bias)
    let outputGate := goSigmoid ops (og + n.bias)
    let cellInput := goTanh ops (ci + n.bias)
    let cellState := n.cellState * forgetGate + cellInput * inputGate
    some { n with cellState := cellState, value := goTanh ops cellState * outputGate }
  | _, _, _, _ => none

/-- The kernel hard-coded in ProcessCNNNeuron (neuron.go line 113). -/
def cnnFixedKernel : List ℚ := [2 / 10, 5 / 10, 2 / 10]

/-- One convolution window of ProcessCNNNeuron:
`act(bias + Σ_j inputs[i+j] * kernel[j])`. -/
def cnnWindow (bp : Blueprint) (n : Neuron) (inputs : List ℚ) (i : ℕ) : ℚ :=
  applyScalarActivation bp
    ((List.range cnnFixedKernel.length).foldl
      (fun s j => s + (inputs.getD (i + j) 0) * (cnnFixedKernel.getD j 0)) n.bias)
    n.activation

/-- ProcessCNNNeuron (neuron.go lines 111-130).  The node's own `Kernels`
field is never read; the single fixed kernel `[0.2, 0.5, 0.2]` is slid over
the fan-in.  `make([]float64, len(inputs)-len(kernel)+1)` panics when the
length is negative, i.e. when the fan-in is shorter than 2: modelled by
`none`.  When the fan-in has length exactly 2 there are zero windows and Go
computes `0.0/0.0 = NaN`; `ℚ` division by zero yields `0` instead, so
theorems avoid that case. -/
def processCNNNeuron (bp : Blueprint) (n : Neuron) (inputs : List ℚ) : Option Neuron :=
  if inputs.length + 1 < cnnFixedKernel.length then none
  else
    let outs := (List.range (inputs.length + 1 - cnnFixedKernel.length)).map
      (cnnWindow bp n inputs)
    some { n with value := outs.foldl (· + ·) 0 / (outs.length : ℚ) }

/-- ApplyDropout (neuron.go): zero the value with probability equal to the
dropout rate; the random draw is passed in explicitly. -/
def applyDropout (n : Neuron) (draw : ℚ) : Neuron :=
  if draw < n.dropoutRate then { n with value := 0 } else n

/-- ApplyBatchNormalization (neuron.go), called with mean 0 and variance 1:
`(value - 0) / sqrt(1 + 1e-7)`. -/
def applyBatchNormalization (ops : RealOps) (n : Neuron) : Neuron :=
  { n with value := (n.value - 0) / ops.sqrt (1 + 1 / 10000000) }

/-- ProcessNeuron (neuron.go): dispatch on the neuron kind.  The attention
case only logs (the Forward in blueprint.go has no special attention branch),
input neurons are skipped, every unknown kind (including nca) falls through
to the dense rule.  Consumes at most one random draw (dropout); returns the
updated neuron and the new draw counter, or `none` on a Go panic. -/
def processNeuron (ops : RealOps) (bp : Blueprint) (n : Neuron) (inputs : List ℚ)
    (rngF : ℕ → ℚ) (k : ℕ) : Option (Neuron × ℕ) :=
  if n.ty = "input" then some (n, k)
  else if n.ty = "rnn" then some (processRNNNeuron bp n inputs, k)
  else if n.ty = "lstm" then (processLSTMNeuron ops n inputs).map (·, k)
  else if n.ty = "cnn" then (processCNNNeuron bp n inputs).map (·, k)
  else if n.ty = "dropout" then some (applyDropout n (rngF k), k + 1)
  else if n.ty = "batch_norm" then some (applyBatchNormalization ops n, k)
  else if n.ty = "attention" then some (n, k)
  else some (processDenseNeuron bp n inputs, k)

/-- Gathers a neuron's weighted fan-in (Forward, blueprint.go lines 149-157):
source value times weight, in connection order, skipping dangling sources. -/
def gatherInputs (bp : Blueprint) (n : Neuron) : List ℚ :=
  n.connections.filterMap
    (fun c => (lookupNeuron bp.neurons c.1).map (fun sn => sn.value * c.2))

/-- Body of the per-timestep loop of Forward for one candidate ID: skip the
ID when absent from the table or an input node, otherwise gather the fan-in
and process the neuron, writing it back through the table. -/
def forwardVisit (ops : RealOps) (rngF : ℕ → ℚ) (st : Blueprint × ℕ) (id : ℤ) :
    Option (Blueprint × ℕ) :=
  let bp := st.1
  match lookupNeuron bp.neurons id with
  | none => some st
  | some n =>
    if n.ty = "input" then some st
    else
      (processNeuron ops bp n (gatherInputs bp n) rngF st.2).map
        (fun r => ({ bp with neurons := setNeuron bp.neurons id r.1 }, r.2))

/-- The candidate IDs visited by one timestep of Forward (blueprint.go
line 143): `for id := 1; id <= len(bp.Neurons); id++`.  IDs above the table
size are never visited. -/
def forwardIds (bp : Blueprint) : List ℤ :=
  (List.range' 1 bp.neurons.length).map (fun i => (i : ℤ))

/-- Folds an `Option`-valued visitor over a list (a Go loop whose body can
panic). -/
def foldVisit (f : Blueprint × ℕ → ℤ → Option (Blueprint × ℕ)) :
    List ℤ → Blueprint × ℕ → Option (Blueprint × ℕ)
  | [], st => some st
  | id :: rest, st =>
    match f st id with
    | none => none
    | some st1 => foldVisit f rest st1

/-- One timestep of Forward: visit the candidate IDs in ascending order. -/
def forwardTimestep (ops : RealOps) (rngF : ℕ → ℚ) (st : Blueprint × ℕ) :
    Option (Blueprint × ℕ) :=
  foldVisit (forwardVisit ops rngF) (forwardIds st.1) st

/-- Runs `t` timesteps of the Forward loop. -/
def forwardLoop (ops : RealOps) (rngF : ℕ → ℚ) :
    ℕ → Blueprint × ℕ → Option (Blueprint × ℕ)
  | 0, st => some st
  | t + 1, st =>
    match forwardTimestep ops rngF st with
    | none => none
    | some st1 => forwardLoop ops rngF t st1

/-- Sets the input neurons from the session input map (Forward, blueprint.go
lines 127-134); IDs absent from the table are skipped. -/
def setInputs (bp : Blueprint) (inputs : List (ℤ × ℚ)) : Blueprint :=
  inputs.foldl
    (fun acc p =>
      match lookupNeuron acc.neurons p.1 with
      | none => acc
      | some n => { acc with neurons := setNeuron acc.neurons p.1 { n with value := p.2 } })
    bp

/-- Softmax over a slice (utils.go `Softmax`).  `inputs[0]` on an empty
slice is a Go panic, modelled by `none`; the running maximum then the
exponential normalisation follow the source loops. -/
def softmaxSlice (ops : RealOps) (inputs : List ℚ) : Option (List ℚ) :=
  match inputs with
  | [] => none
  | x :: _ =>
    let m := inputs.foldl (fun acc v => if v > acc then v else acc) x
    let exps := inputs.map (fun v => ops.exp (v - m))
    let s := exps.foldl (· + ·) 0
    some (exps.map (fun e => e / s))

/-- The assignment loop of ApplySoftmax (neuron.go lines 190-196): walk the
output-node list with its index `i`, skip IDs missing from the table, write
`softmaxValues[i]` into the others.  When an existing output follows a
missing one, `i` exceeds the length of `softmaxValues` and Go panics with an
index out of range: modelled by `none`. -/
def assignSoftmax (bp : Blueprint) (vals : List ℚ) :
    List ℤ → ℕ → List (ℤ × Neuron) → Option (List (ℤ × Neuron))
  | [], _, tbl => some tbl
  | id :: rest, i, tbl =>
    match lookupNeuron tbl id with
    | none => assignSoftmax bp vals rest (i + 1) tbl
    | some n =>
      match vals.get? i with
      | none => none
      | some v => assignSoftmax bp vals rest (i + 1) (setNeuron tbl id { n with value := v })

/-- ApplySoftmax (neuron.go lines 178-196): collect the values of the output
nodes that exist, soft-max them jointly, and write them back by output-list
index. -/
def applySoftmax (ops : RealOps) (bp : Blueprint) : Option Blueprint :=
  let outputValues := bp.outputNodes.filterMap
    (fun id => (lookupNeuron bp.neurons id).map (·.value))
  match softmaxSlice ops outputValues with
  | none => none
  | some vals =>
    (assignSoftmax bp vals bp.outputNodes 0 bp.neurons).map
      (fun tbl => { bp with neurons := tbl })

/-- Forward (blueprint.go lines 125-166): set the inputs, run the timestep
loop, then apply the joint output softmax.  `none` models a Go panic. -/
def forward (ops : RealOps) (rngF : ℕ → ℚ) (bp : Blueprint) (inputs : List (ℤ × ℚ))
    (timesteps : ℕ) (k : ℕ) : Option (Blueprint × ℕ) :=
  match forwardLoop ops rngF timesteps (setInputs bp inputs, k) with
  | none => none
  | some st =>
    match applySoftmax ops st.1 with
    | none => none
    | some bp1 => some (bp1, st.2)

/-- GetOutputs (blueprint.go): the values of the output nodes that exist. -/
def getOutputs (bp : Blueprint) : List (ℤ × ℚ) :=
  bp.outputNodes.filterMap
    (fun id => (lookupNeuron bp.neurons id).map (fun n => (id, n.value)))

/-- A labelled evaluation session (eval.go `Session`). -/
structure Session where
  inputVariables : List (ℤ × ℚ)
  expectedOutput : List (ℤ × ℚ)
  timesteps : ℕ
deriving DecidableEq

/-- The exact value of `math.MaxFloat64`. -/
def maxFloat64 : ℚ := 2 ^ 1024 - 2 ^ 971

/-- getMaxFloat (utils.go). -/
def getMaxFloat : ℚ := maxFloat64

/-- softmaxMap (unnamed part_000): per-key `exp(v) / Σ exp(v)` over a value
map, with no maximum subtraction. -/
def softmaxMap (ops : RealOps) (m : List (ℤ × ℚ)) : List (ℤ × ℚ) :=
  let sumExp := m.foldl (fun s p => s + ops.exp p.2) 0
  m.map (fun p => (p.1, ops.exp p.2 / sumExp))

/-- argmaxMap (unnamed part_000): the key of the maximum value, starting
from `maxVal = -math.MaxFloat64` and key 0, iterating in map order. -/
def argmaxMap (m : List (ℤ × ℚ)) : ℤ :=
  (m.foldl (fun acc p => if p.2 > acc.2 then p else acc) ((0 : ℤ), -maxFloat64)).1

/-- Loop body of calculateGenerousValue: accumulate the absolute
difference and the count for keys present in the predicted map, skipping
missing keys. -/
def genStep (predicted : List (ℤ × ℚ)) (a : ℚ × ℕ) (p : ℤ × ℚ) : ℚ × ℕ :=
  match predicted.lookup p.1 with
  | none => a
  | some pv => (a.1 + |pv - p.2|, a.2 + 1)

/-- calculateGenerousValue (eval.go lines 138-167): iterate the expected
map, skip keys missing from the predicted map, average the absolute
differences of the present keys, return `1 - mean` clamped below at 0;
guard clauses return 0 for an empty map or no common key. -/
def calculateGenerousValue (predicted expected : List (ℤ × ℚ)) : ℚ :=
  if predicted.length = 0 ∨ expected.length = 0 then 0
  else
    let acc := expected.foldl (genStep predicted) ((0 : ℚ), (0 : ℕ))
    if acc.2 = 0 then 0
    else
      let generousValue := 1 - acc.1 / (acc.2 : ℚ)
      if generousValue < 0 then 0 else generousValue

/-- The decile bucket of one absolute error (isDecileConsistent, eval.go):
`int(|p - e| / 0.1)` capped at 9.  The difference is non-negative, so the
Go truncation toward zero is the floor. -/
def decileOf (p e : ℚ) : ℤ :=
  let decile := ⌊|p - e| / (1 / 10)⌋
  if decile > 9 then 9 else decile

/-- The scan of isDecileConsistent over the expected map, carrying the
reference decile (initially 0): a missing predicted key fails; while the
reference is 0 it is overwritten by the current decile; afterwards any
differing decile fails. -/
def decileScan (predicted : List (ℤ × ℚ)) (ref : ℤ) : List (ℤ × ℚ) → Bool
  | [] => true
  | p :: rest =>
    match predicted.lookup p.1 with
    | none => false
    | some pv =>
      let decile := decileOf pv p.2
      if ref = 0 then decileScan predicted decile rest
      else if ref ≠ decile then false
      else decileScan predicted ref rest

/-- isDecileConsistent (eval.go lines 110-135). -/
def isDecileConsistent (predicted expected : List (ℤ × ℚ)) : Bool :=
  decileScan predicted 0 expected

/-- One session's predicted output map paired with its expected output map. -/
abbrev Outcome := List (ℤ × ℚ) × List (ℤ × ℚ)

/-- The accumulator of the EvaluateModelPerformance loop (eval.go). -/
structure EvalAcc where
  exactCorrectPredictions : ℕ
  exactErrorCount : ℕ
  totalGenerousValue : ℚ
  totalGenerousError : ℚ
  decileConsistentCount : ℕ
  decileInconsistentCount : ℕ
deriving DecidableEq

/-- The per-session body of the EvaluateModelPerformance loop (eval.go
lines 25-49), applied to a session's predicted and expected output maps. -/
def evalStep (ops : RealOps) (acc : EvalAcc) (oc : Outcome) : EvalAcc :=
  let probs := softmaxMap ops oc.1
  let predClass := argmaxMap probs
  let expClass := argmaxMap oc.2
  let generousValue := calculateGenerousValue oc.1 oc.2
  { exactCorrectPredictions :=
      acc.exactCorrectPredictions + (if predClass = expClass then 1 else 0)
    exactErrorCount := acc.exactErrorCount + (if predClass = expClass then 0 else 1)
    totalGenerousValue := acc.totalGenerousValue + generousValue
    totalGenerousError := acc.totalGenerousError + (getMaxFloat - generousValue)
    decileConsistentCount :=
      acc.decileConsistentCount + (if isDecileConsistent oc.1 oc.2 then 1 else 0)
    decileInconsistentCount :=
      acc.decileInconsistentCount + (if isDecileConsistent oc.1 oc.2 then 0 else 1) }

/-- The six values returned by EvaluateModelPerformance (eval.go line 56):
exact accuracy, generous accuracy, decile-consistency accuracy (the third
accuracy metric), exact error count, average generous error, decile
inconsistent count. -/
structure EvalResult where
  exactAccuracy : ℚ
  generousAccuracy : ℚ
  decileConsistencyAccuracy : ℚ
  exactErrorCount : ℕ
  averageGenerousError : ℚ
  decileInconsistentCount : ℕ
deriving DecidableEq

/-- The metric reduction of EvaluateModelPerformance (eval.go lines 17-57)
as a function of the per-session outcomes: run the accumulation loop and
take the final quotients. -/
def evalOutcomes (ops : RealOps) (ocs : List Outcome) : EvalResult :=
  let a := ocs.foldl (evalStep ops)
    ⟨0, 0, 0, 0, 0, 0⟩
  { exactAccuracy := (a.exactCorrectPredictions : ℚ) / (ocs.length : ℚ) * 100
    generousAccuracy := a.totalGenerousValue / (ocs.length : ℚ)
    decileConsistencyAccuracy := (a.decileConsistentCount : ℚ) / (ocs.length : ℚ) * 100
    exactErrorCount := a.exactErrorCount
    averageGenerousError := a.totalGenerousError / (ocs.length : ℚ)
    decileInconsistentCount := a.decileInconsistentCount }

/-- The session loop of EvaluateModelPerformance: run the network on each
session in order (state persists from one session to the next, as with the
in-place Go mutation) and record each session's predicted and expected
output maps. -/
def runSessions (ops : RealOps) (rngF : ℕ → ℚ) :
    List Session → Blueprint × ℕ → Option (List Outcome × Blueprint × ℕ)
  | [], st => some ([], st)
  | sess :: rest, st =>
    match forward ops rngF st.1 sess.inputVariables sess.timesteps st.2 with
    | none => none
    | some st1 =>
      match runSessions ops rngF rest st1 with
      | none => none
      | some (ocs, stf) => some ((getOutputs st1.1, sess.expectedOutput) :: ocs, stf)

/-- EvaluateModelPerformance (eval.go lines 17-57): run every session, then
reduce the recorded outcomes to the six metrics; `none` models a Go panic
during propagation. -/
def evaluateModelPerformance (ops : RealOps) (rngF : ℕ → ℚ) (bp : Blueprint)
    (sessions : List Session) (k : ℕ) : Option (EvalResult × Blueprint × ℕ) :=
  (runSessions ops rngF sessions (bp, k)).map (fun r => (evalOutcomes ops r.1, r.2))

/-- connectionExists (utils.go lines 723-734): does the target neuron hold a
connection whose stored source is `sourceID`? -/
def connectionExists (bp : Blueprint) (sourceID targetID : ℤ) : Bool :=
  match lookupNeuron bp.neurons targetID with
  | none => false
  | some n => n.connections.any (fun c => c.1 = sourceID)

/-- addConnection (utils.go lines 737-746): error when the target neuron is
missing, otherwise append `(sourceID, weight)` to the target's connection
list.  No duplicate check and no removal of an existing connection. -/
def addConnection (bp : Blueprint) (sourceID targetID : ℤ) (weight : ℚ) :
    Option String × Blueprint :=
  match lookupNeuron bp.neurons targetID with
  | none => (some ("target neuron " ++ toString targetID ++ " does not exist"), bp)
  | some n =>
    let n1 := { n with connections := n.connections ++ [(sourceID, weight)] }
    (none, { bp with neurons := setNeuron bp.neurons targetID n1 })

/-- removeConnection (utils.go lines 749-762): drop every connection of the
target whose stored source is `sourceID`; a missing target is a no-op. -/
def removeConnection (bp : Blueprint) (sourceID targetID : ℤ) : Blueprint :=
  match lookupNeuron bp.neurons targetID with
  | none => bp
  | some n =>
    let n1 := { n with connections := n.connections.filter (fun c => c.1 ≠ sourceID) }
    { bp with neurons := setNeuron bp.neurons targetID n1 }

/-- getConnectionWeight (neuron.go lines 809-820): read the first connection
of the neuron stored at `sourceID` whose stored source is `targetID`
(note the reversed role of the two arguments relative to addConnection),
returning 0 when absent. -/
def getConnectionWeight (bp : Blueprint) (sourceID targetID : ℤ) : ℚ :=
  match lookupNeuron bp.neurons sourceID with
  | none => 0
  | some n =>
    match n.connections.find? (fun c => c.1 = targetID) with
    | none => 0
    | some c => c.2

/-- The adjust_weight modification of LearnOneDataItemAtATime (neuron.go
lines 590-622): read the old weight via getConnectionWeight, add the delta,
and pass the pair unchanged to addConnection, which appends.  Nothing is
removed and no existence check is made. -/
def adjustWeightModification (bp : Blueprint) (sourceID targetID : ℤ) (delta : ℚ) :
    Option String × Blueprint :=
  let newWeight := getConnectionWeight bp sourceID targetID + delta
  addConnection bp sourceID targetID newWeight

/-- The total number of connections stored in the graph. -/
def totalConnections (bp : Blueprint) : ℕ :=
  (bp.neurons.map (fun p => p.2.connections.length)).sum

/-- isValidNeuronType (mutations.go lines 158-168). -/
def isValidNeuronType (neuronType : String) : Bool :=
  ["dense", "rnn", "lstm", "cnn", "dropout", "batch_norm", "attention", "nca"].any
    (fun t => t = neuronType)

/-- generateUniqueNeuronID (mutations.go lines 172-180): the maximum
existing ID (at least 0) plus one. -/
def generateUniqueNeuronID (bp : Blueprint) : ℤ :=
  bp.neurons.foldl (fun m p => if p.1 > m then p.1 else m) 0 + 1

/-- isInputNode (mutations.go lines 183-190). -/
def isInputNode (bp : Blueprint) (neuronID : ℤ) : Bool :=
  bp.inputNodes.any (fun id => id = neuronID)

/-- isOutputNode (evolutionary.go lines 240-247). -/
def isOutputNode (bp : Blueprint) (neuronID : ℤ) : Bool :=
  bp.outputNodes.any (fun id => id = neuronID)

/-- RandomWeights (blueprint.go lines 93-99): `size` draws of
`NormFloat64() * 0.5`, with the draw counter threaded. -/
def randomWeights (rngF : ℕ → ℚ) (k : ℕ) (size : ℕ) : List ℚ × ℕ :=
  ((List.range size).map (fun i => rngF (k + i) * (1 / 2)), k + size)

/-- The activation choices of createNeuron (mutations.go line 105). -/
def activationChoices : List String :=
  ["relu", "sigmoid", "tanh", "leaky_relu", "linear"]

/-- createNeuron (mutations.go lines 94-155): random value and bias, then a
kind switch assigning the activation (random for every kind except dropout)
and the kind-specific extras.  `rngF` models the Float64/NormFloat64 draws
and `rngI` the Intn draws; both advance one shared counter.  The Go version
in mutations.go never returns a non-nil error. -/
def createNeuron (rngF : ℕ → ℚ) (rngI : ℕ → ℕ) (id : ℤ) (neuronType : String)
    (k : ℕ) : Neuron × ℕ :=
  let base := { defaultNeuron with
    nid := id
    ty := neuronType
    value := rngF k * 2 - 1
    bias := rngF (k + 1) * 2 - 1
    connections := []
    activation := "linear" }
  let pick := fun (j : ℕ) =>
    activationChoices.getD (rngI j % activationChoices.length) "linear"
  if neuronType = "dense" ∨ neuronType = "rnn" then
    ({ base with activation := pick (k + 2) }, k + 3)
  else if neuronType = "lstm" then
    let g1 := randomWeights rngF (k + 3) 1
    let g2 := randomWeights rngF g1.2 1
    let g3 := randomWeights rngF g2.2 1
    let g4 := randomWeights rngF g3.2 1
    let gates := [("input", g1.1), ("forget", g2.1), ("output", g3.1), ("cell", g4.1)]
    ({ base with activation := pick (k + 2), gateWeights := gates }, g4.2)
  else if neuronType = "cnn" then
    let ks : List (List ℚ) := [[2 / 10, 5 / 10], [3 / 10, 4 / 10]]
    ({ base with activation := pick (k + 2), kernels := ks }, k + 3)
  else if neuronType = "dropout" then
    ({ base with dropoutRate := 1 / 2 }, k + 2)
  else if neuronType = "batch_norm" then
    ({ base with activation := pick (k + 2), batchNormParams := some ⟨1, 0, 0, 1⟩ }, k + 3)
  else if neuronType = "attention" then
    ({ base with activation := pick (k + 2), attention := true }, k + 3)
  else if neuronType = "nca" then
    let st := (List.range 10).map (fun i => rngF (k + 3 + i) * 2 - 1)
    ({ base with activation := pick (k + 2), ncaState := st }, k + 13)
  else
    ({ base with activation := pick (k + 2) }, k + 3)

/-- Updates the table entry of one neuron through its pointer. -/
def updateNeuron (bp : Blueprint) (id : ℤ) (f : Neuron → Neuron) : Blueprint :=
  match lookupNeuron bp.neurons id with
  | none => bp
  | some n => { bp with neurons := setNeuron bp.neurons id (f n) }

/-- initializeLSTMWeights (mutations.go lines 75-92): when the neuron has
connections, give every gate one fresh random weight per connection;
a connectionless LSTM neuron is left untouched with a warning. -/
def initializeLSTMWeights (rngF : ℕ → ℚ) (bp : Blueprint) (id : ℤ) (k : ℕ) :
    Blueprint × ℕ :=
  match lookupNeuron bp.neurons id with
  | none => (bp, k)
  | some n =>
    if n.connections.length = 0 then (bp, k)
    else
      let g1 := randomWeights rngF k n.connections.length
      let g2 := randomWeights rngF g1.2 n.connections.length
      let g3 := randomWeights rngF g2.2 n.connections.length
      let g4 := randomWeights rngF g3.2 n.connections.length
      (updateNeuron bp id (fun m =>
        { m with gateWeights :=
            [("input", g1.1), ("forget", g2.1), ("output", g3.1), ("cell", g4.1)] }),
       g4.2)

/-- initializeNCACustomFields (mutations.go lines 224-233). -/
def initializeNCACustomFields (bp : Blueprint) (id : ℤ) : Blueprint :=
  updateNeuron bp id (fun n =>
    { n with neighborhoodIDs := n.neighborhoodIDs ++ bp.inputNodes,
             updateRules := "sum" })

/-- initializeBatchNormFields (mutations.go lines 239-261): set the default
parameters unless they are already present. -/
def initializeBatchNormFields (bp : Blueprint) (id : ℤ) : Blueprint :=
  updateNeuron bp id (fun n =>
    match n.batchNormParams with
    | some _ => n
    | none => { n with batchNormParams := some ⟨1, 0, 0, 1⟩ })

/-- InsertNeuronOfTypeBetweenInputsAndOutputs (mutations.go lines 11-72):
validate the kind (returning an error and leaving the graph untouched when
it is unsupported), create the neuron with a fresh ID, add it to the table,
connect every input node to it, connect it to every existing output node,
and run the kind-specific post-initialisation. -/
def insertNeuronOfTypeBetweenInputsAndOutputs (rngF : ℕ → ℚ) (rngI : ℕ → ℕ)
    (bp : Blueprint) (neuronType : String) (k : ℕ) :
    Option String × Blueprint × ℕ :=
  if ¬ isValidNeuronType neuronType then
    (some ("invalid neuron type: " ++ neuronType), bp, k)
  else
    let newNeuronID := generateUniqueNeuronID bp
    let created := createNeuron rngF rngI newNeuronID neuronType k
    let bp1 := { bp with neurons := bp.neurons ++ [(newNeuronID, created.1)] }
    let afterInputs := bp.inputNodes.foldl
      (fun (st : Blueprint × ℕ) inputID =>
        let bp2 := updateNeuron st.1 newNeuronID (fun n =>
          { n with connections := n.connections ++ [(inputID, rngF st.2 * 2 - 1)] })
        (bp2, st.2 + 1))
      (bp1, created.2)
    let afterOutputs := bp.outputNodes.foldl
      (fun (st : Blueprint × ℕ) outputID =>
        match lookupNeuron st.1.neurons outputID with
        | none => st
        | some n =>
          let n1 := { n with connections := n.connections ++ [(newNeuronID, rngF st.2 * 2 - 1)] }
          ({ st.1 with neurons := setNeuron st.1.neurons outputID n1 }, st.2 + 1))
      afterInputs
    if neuronType = "lstm" then
      let r := initializeLSTMWeights rngF afterOutputs.1 newNeuronID afterOutputs.2
      (none, r.1, r.2)
    else if neuronType = "nca" then
      (none, initializeNCACustomFields afterOutputs.1 newNeuronID, afterOutputs.2)
    else if neuronType = "batch_norm" then
      (none, initializeBatchNormFields afterOutputs.1 newNeuronID, afterOutputs.2)
    else
      (none, afterOutputs.1, afterOutputs.2)

/-- RemoveNeuron (evolutionary.go lines 168-182): delete the table entry and
strip every remaining neuron's connections whose stored source is the
removed ID. -/
def removeNeuron (bp : Blueprint) (neuronID : ℤ) : Blueprint :=
  let strip := fun (n : Neuron) =>
    { n with connections := n.connections.filter (fun c => c.1 ≠ neuronID) }
  let stripped := (bp.neurons.filter (fun p => p.1 ≠ neuronID)).map
    (fun p => (p.1, strip p.2))
  { bp with neurons := stripped }

/-- The metric triple tracked by the search orchestrators. -/
structure Metrics where
  exact : ℚ
  generous : ℚ
  forgiveness : ℚ
deriving DecidableEq

/-- The acceptance test of SimpleNAS (nas.go line 55), of
SimpleNASWithoutCrossover with all three metrics selected (nas.go lines
166-182), and of HillClimbWeightUpdate (unnamed part_001 line 59): accept
as soon as any one metric strictly improves, regardless of the others. -/
def acceptAnyImproves (best cand : Metrics) : Bool :=
  cand.exact > best.exact || cand.generous > best.generous ||
    cand.forgiveness > best.forgiveness

/-- The acceptance test of SimpleNASWithRandomConnections (nas.go lines
320-321) and the per-candidate filter of the max-reduction in
ParallelSimpleNASWithRandomConnections (nas.go lines 510-513): exact must
strictly improve, or stay equal while generous or forgiveness improves. -/
def acceptExactFirst (best cand : Metrics) : Bool :=
  cand.exact > best.exact ||
    (cand.exact = best.exact &&
      (cand.generous > best.generous || cand.forgiveness > best.forgiveness))

/-- One committed round of an orchestrator: the evaluated candidate
replaces the tracked best exactly when the acceptance test passes. -/
def commitRound (accept : Metrics → Metrics → Bool) (best cand : Metrics) : Metrics :=
  if accept best cand then cand else best

/-- The tracked best after a run of committed rounds over the evaluated
candidates, in order. -/
def runCommitted (accept : Metrics → Metrics → Bool) (best : Metrics)
    (cands : List Metrics) : Metrics :=
  cands.foldl (commitRound accept) best

/-- SerializeToJSON followed by DeserializesFromJSON into a zero Blueprint
(utils.go lines 396-408), the isolation mechanism of the
LearnOneDataItemAtATime and TryAddConnections workers: every JSON-visible
field survives the round trip, but ScalarActivationMap carries the JSON
tag `-`, is never written, and DeserializesFromJSON performs no
re-initialisation, so the copy's registry is the nil map. -/
def serializeRoundTrip (bp : Blueprint) : Blueprint :=
  { bp with scalarActivationMap := none }

/-- Clone (nas.go lines 74-99) at the value level: the JSON round trip
followed by the nil-registry re-initialisation that Clone (unlike the
workers' DeserializesFromJSON) does perform. -/
def cloneValue (ops : RealOps) (bp : Blueprint) : Blueprint :=
  let rt := serializeRoundTrip bp
  { rt with scalarActivationMap := some (scalarActivationFunctions ops) }

/-- Spec-side per-session generous similarity, following the claim wording:
mean absolute error over all expected keys with a missing predicted key
counting as error 1, converted to `max(0, min(100, (1-MAE)*100))`. -/
def specGenerousValue (predicted expected : List (ℤ × ℚ)) : ℚ :=
  let mae := (expected.map (fun p =>
    match predicted.lookup p.1 with
    | none => (1 : ℚ)
    | some pv => |pv - p.2|)).sum / (expected.length : ℚ)
  max 0 (min 100 ((1 - mae) * 100))

/-- Spec-side generous accuracy, following the claim wording: the average
of the per-session similarity percentages. -/
def specGenerousAccuracy (ocs : List Outcome) : ℚ :=
  (ocs.map (fun oc => specGenerousValue oc.1 oc.2)).sum / (ocs.length : ℚ)

/-- Spec-side forgiveness check of one session, following the claim
wording: every expected output value must have its predicted counterpart
inside the relative band `[expected*(1-t), expected*(1+t)]`, a missing
predicted key failing the session. -/
def specSessionForgiven (t : ℚ) (predicted expected : List (ℤ × ℚ)) : Bool :=
  expected.all (fun p =>
    match predicted.lookup p.1 with
    | none => false
    | some pv => decide (p.2 * (1 - t) ≤ pv) && decide (pv ≤ p.2 * (1 + t)))

/-- Spec-side forgiveness accuracy, following the claim wording: the
percentage of sessions passing the band check. -/
def specForgivenessAccuracy (t : ℚ) (ocs : List Outcome) : ℚ :=
  ((ocs.countP (fun oc => specSessionForgiven t oc.1 oc.2)) : ℚ) / (ocs.length : ℚ) * 100

/-- A connection cell in the tagged heap model of Clone: one Go
`[]float64` pair slice (source, weight) carrying its allocation tag. -/
structure HConn where
  tag : ℕ
  source : ℤ
  weight : ℚ
deriving DecidableEq

/-- A gate-weight vector slice with its allocation tag. -/
structure HGate where
  name : String
  tag : ℕ
  ws : List ℚ
deriving DecidableEq

/-- A neuron in the tagged heap model: the scalar fields together with the
tagged mutable slices named by the clone-independence claim (the
connection list, each connection pair, each LSTM gate-weight vector). -/
structure HNeuron where
  nid : ℤ
  ty : String
  value : ℚ
  bias : ℚ
  activation : String
  cellState : ℚ
  connsTag : ℕ
  conns : List HConn
  gates : List HGate
deriving DecidableEq

/-- A graph in the tagged heap model: the node table and the two ID lists,
each with the allocation tag of its backing store. -/
structure HBlueprint where
  tableTag : ℕ
  table : List (ℤ × HNeuron)
  inTag : ℕ
  inputNodes : List ℤ
  outTag : ℕ
  outputNodes : List ℤ
deriving DecidableEq

/-- All allocation tags reachable from a neuron. -/
def HNeuron.tags (n : HNeuron) : List ℕ :=
  n.connsTag :: (n.conns.map HConn.tag ++ n.gates.map HGate.tag)

/-- All allocation tags reachable from a graph. -/
def HBlueprint.tags (bp : HBlueprint) : List ℕ :=
  bp.tableTag :: bp.inTag :: bp.outTag :: (bp.table.map (fun p => p.2.tags)).flatten

/-- Re-allocates every connection cell with consecutive fresh tags. -/
def cloneConns : List HConn → ℕ → List HConn × ℕ
  | [], k => ([], k)
  | c :: cs, k =>
    let r := cloneConns cs (k + 1)
    ({ c with tag := k } :: r.1, r.2)

/-- Re-allocates every gate-weight vector with consecutive fresh tags. -/
def cloneGates : List HGate → ℕ → List HGate × ℕ
  | [], k => ([], k)
  | g :: gs, k =>
    let r := cloneGates gs (k + 1)
    ({ g with tag := k } :: r.1, r.2)

/-- Re-allocates a neuron's slices with fresh tags. -/
def cloneNeuron (n : HNeuron) (k : ℕ) : HNeuron × ℕ :=
  let rc := cloneConns n.conns (k + 1)
  let rg := cloneGates n.gates rc.2
  ({ n with connsTag := k, conns := rc.1, gates := rg.1 }, rg.2)

/-- Re-allocates a whole node table. -/
def cloneTable : List (ℤ × HNeuron) → ℕ → List (ℤ × HNeuron) × ℕ
  | [], k => ([], k)
  | p :: ps, k =>
    let rn := cloneNeuron p.2 k
    let rt := cloneTable ps rn.2
    ((p.1, rn.1) :: rt.1, rt.2)

/-- Clone (nas.go lines 74-99) in the tagged heap model: the JSON round
trip re-builds the graph from its textual form, so unmarshalling allocates
the node table, every connection slice, every gate-weight vector and both
ID lists afresh — every tag of the result is taken from the fresh counter
— while all observable values are copied unchanged. -/
def clone (bp : HBlueprint) (k : ℕ) : HBlueprint × ℕ :=
  let rt := cloneTable bp.table (k + 3)
  ({ tableTag := k, table := rt.1, inTag := k + 1, inputNodes := bp.inputNodes,
     outTag := k + 2, outputNodes := bp.outputNodes }, rt.2)

/-- Tag-stripped view of a connection cell. -/
structure OConn where
  source : ℤ
  weight : ℚ
deriving DecidableEq

/-- Tag-stripped view of a gate-weight vector. -/
structure OGate where
  name : String
  ws : List ℚ
deriving DecidableEq

/-- Tag-stripped view of a neuron: its observable fields. -/
structure ONeuron where
  nid : ℤ
  ty : String
  value : ℚ
  bias : ℚ
  activation : String
  cellState : ℚ
  conns : List OConn
  gates : List OGate
deriving DecidableEq

/-- Tag-stripped view of a graph: the observable fields named by the
clone-independence claim. -/
structure OBlueprint where
  table : List (ℤ × ONeuron)
  inputNodes : List ℤ
  outputNodes : List ℤ
deriving DecidableEq

/-- Observation of a connection cell. -/
def observeConn (c : HConn) : OConn := ⟨c.source, c.weight⟩

/-- Observation of a gate-weight vector. -/
def observeGate (g : HGate) : OGate := ⟨g.name, g.ws⟩

/-- Observation of a neuron. -/
def observeNeuron (n : HNeuron) : ONeuron :=
  ⟨n.nid, n.ty, n.value, n.bias, n.activation, n.cellState,
   n.conns.map observeConn, n.gates.map observeGate⟩

/-- Observation of a graph. -/
def observeBlueprint (bp : HBlueprint) : OBlueprint :=
  ⟨bp.table.map (fun p => (p.1, observeNeuron p.2)), bp.inputNodes, bp.outputNodes⟩

/-- A heap write addressed by allocation tag: overwrite a connection's
weight cell, a connection list, a gate-weight vector, the node table, or
an ID list. -/
inductive HWrite where
  | weightAt (t : ℕ) (w : ℚ)
  | connsAt (t : ℕ) (cs : List HConn)
  | gateAt (t : ℕ) (ws : List ℚ)
  | tableAt (t : ℕ) (tbl : List (ℤ × HNeuron))
  | idsAt (t : ℕ) (ids : List ℤ)

/-- The tag a heap write is addressed to. -/
def HWrite.tag : HWrite → ℕ
  | .weightAt t _ => t
  | .connsAt t _ => t
  | .gateAt t _ => t
  | .tableAt t _ => t
  | .idsAt t _ => t

/-- Effect of a slice-level write on one connection cell. -/
def hwriteConn (t : ℕ) (w : ℚ) (c : HConn) : HConn :=
  if c.tag = t then { c with weight := w } else c

/-- Effect of a slice-level write inside one neuron. -/
def hwriteNeuron (wr : HWrite) (n : HNeuron) : HNeuron :=
  match wr with
  | .weightAt t w => { n with conns := n.conns.map (hwriteConn t w) }
  | .connsAt t cs => if n.connsTag = t then { n with conns := cs } else n
  | .gateAt t ws =>
    { n with gates := n.gates.map (fun g => if g.tag = t then { g with ws := ws } else g) }
  | _ => n

/-- Effect of a heap write on a graph: the write lands on whatever storage
carries the addressed tag. -/
def hwrite (wr : HWrite) (bp : HBlueprint) : HBlueprint :=
  match wr with
  | .tableAt t tbl => if bp.tableTag = t then { bp with table := tbl } else bp
  | .idsAt t ids =>
    let bp1 := if bp.inTag = t then { bp with inputNodes := ids } else bp
    if bp1.outTag = t then { bp1 with outputNodes := ids } else bp1
  | wr => { bp with table := bp.table.map (fun p => (p.1, hwriteNeuron wr p.2)) }

/-- Passing the exact-first acceptance test never lowers exact accuracy. -/
theorem acceptExactFirst_le (best cand : Metrics)
    (h : acceptExactFirst best cand = true) : best.exact ≤ cand.exact := by
  simp only [acceptExactFirst, Bool.or_eq_true, Bool.and_eq_true, decide_eq_true_eq] at h
  rcases h with h | ⟨h, _⟩
  · exact le_of_lt h
  · exact le_of_eq h.symm

/-- One exact-first committed round never lowers exact accuracy. -/
theorem commitRound_exactFirst_le (best cand : Metrics) :
    best.exact ≤ (commitRound acceptExactFirst best cand).exact := by
  unfold commitRound
  by_cases h : acceptExactFirst best cand = true
  · simpa [h] using acceptExactFirst_le best cand h
  · simp [h]

/-- A run of exact-first committed rounds never lowers exact accuracy. -/
theorem runCommitted_exactFirst_le (cands : List Metrics) :
    ∀ best : Metrics, best.exact ≤ (runCommitted acceptExactFirst best cands).exact := by
  induction cands with
  | nil => intro best; simp [runCommitted]
  | cons c rest ih =>
    intro best
    calc best.exact ≤ (commitRound acceptExactFirst best c).exact :=
          commitRound_exactFirst_le best c
      _ ≤ (runCommitted acceptExactFirst (commitRound acceptExactFirst best c) rest).exact :=
          ih _
      _ = (runCommitted acceptExactFirst best (c :: rest)).exact := by
          simp [runCommitted]

/-- C2, counterexample.  Under the any-metric-improves acceptance test used
by SimpleNAS, SimpleNASWithoutCrossover and HillClimbWeightUpdate, a
candidate evaluated at (exact 40, generous 20, forgiveness 10) replaces a
tracked best of (50, 10, 10) — it is accepted because generous improves —
so the committed exact accuracy drops from 50 to 40, refuting the claim
that every orchestrator keeps the committed exact accuracy non-decreasing. -/
theorem c2_counterexample :
    runCommitted acceptAnyImproves ⟨50, 10, 10⟩ [⟨40, 20, 10⟩] = ⟨40, 20, 10⟩ ∧
      (runCommitted acceptAnyImproves ⟨50, 10, 10⟩ [⟨40, 20, 10⟩]).exact < 50 := by
  constructor
  · decide
  · decide

/-- C2, amended.  The committed exact accuracy is non-decreasing for the
orchestrators whose acceptance test is exact-first
(SimpleNASWithRandomConnections and ParallelSimpleNASWithRandomConnections);
the orchestrators that accept whenever any one metric improves (SimpleNAS,
SimpleNASWithoutCrossover, HillClimbWeightUpdate) can commit a round that
lowers the exact accuracy, as in the concrete run shown. -/
theorem c2_amended :
    (∀ (best : Metrics) (cands : List Metrics),
        best.exact ≤ (runCommitted acceptExactFirst best cands).exact) ∧
      (runCommitted acceptAnyImproves ⟨50, 10, 10⟩ [⟨40, 20, 10⟩]).exact <
        (Metrics.mk 50 10 10).exact := by
  constructor
  · intro best cands; exact runCommitted_exactFirst_le cands best
  · decide

/-- A map that fixes every element of a list leaves the list unchanged. -/
theorem list_map_fix {α : Type} (l : List α) (f : α → α)
    (h : ∀ x ∈ l, f x = x) : l.map f = l := by
  induction l with
  | nil => rfl
  | cons a l ih =>
    simp only [List.map_cons]
    rw [h a (by simp), ih (fun x hx => h x (by simp [hx]))]

/-- Writing a neuron at a key absent from the table is a no-op. -/
theorem setNeuron_of_not_mem (tbl : List (ℤ × Neuron)) (t : ℤ) (n : Neuron)
    (h : t ∉ tbl.map Prod.fst) : setNeuron tbl t n = tbl := by
  unfold setNeuron
  refine list_map_fix _ _ ?_
  intro p hp
  have : p.1 ≠ t := by
    intro he
    exact h (by simpa [he] using List.mem_map_of_mem Prod.fst hp)
  simp [this]

/-- Appends one connection to a neuron's fan-in (the effect of
addConnection on the target neuron). -/
def appendConn (n : Neuron) (s : ℤ) (w : ℚ) : Neuron :=
  { n with connections := n.connections ++ [(s, w)] }

/-- Unfolds an association-list lookup on a cons cell. -/
theorem lookup_pair_cons {β : Type} (t k : ℤ) (m : β) (rest : List (ℤ × β)) :
    List.lookup t ((k, m) :: rest) = if t = k then some m else List.lookup t rest := by
  by_cases h : t = k
  · simp [List.lookup, h]
  · have hb : (t == k) = false := beq_eq_false_iff_ne.mpr h
    simp [List.lookup, hb, h]

/-- Unfolds a table write on a cons cell. -/
theorem setNeuron_cons (k t : ℤ) (m n : Neuron) (rest : List (ℤ × Neuron)) :
    setNeuron ((k, m) :: rest) t n =
      (if k = t then (k, n) else (k, m)) :: setNeuron rest t n := rfl

/-- After writing a present key, looking it up yields the written neuron. -/
theorem lookup_setNeuron (tbl : List (ℤ × Neuron)) (t : ℤ) (n n1 : Neuron)
    (hl : tbl.lookup t = some n) : (setNeuron tbl t n1).lookup t = some n1 := by
  induction tbl with
  | nil => simp [List.lookup] at hl
  | cons p rest ih =>
    obtain ⟨k, m⟩ := p
    rw [setNeuron_cons]
    by_cases hk : k = t
    · rw [if_pos hk, lookup_pair_cons, if_pos hk.symm]
    · rw [if_neg hk, lookup_pair_cons, if_neg (Ne.symm hk)]
      rw [lookup_pair_cons, if_neg (Ne.symm hk)] at hl
      exact ih hl

/-- Writing a present key changes the connection-count sum by exactly the
difference of the written neuron, provided the keys are distinct (as the
keys of a Go map are). -/
theorem connSum_setNeuron (tbl : List (ℤ × Neuron)) (t : ℤ) (n n1 : Neuron)
    (hnd : (tbl.map Prod.fst).Nodup) (hl : tbl.lookup t = some n) :
    ((setNeuron tbl t n1).map (fun p => p.2.connections.length)).sum + n.connections.length
      = (tbl.map (fun p => p.2.connections.length)).sum + n1.connections.length := by
  induction tbl with
  | nil => simp [List.lookup] at hl
  | cons p rest ih =>
    obtain ⟨k, m⟩ := p
    simp only [List.map_cons, List.nodup_cons] at hnd
    rw [setNeuron_cons]
    by_cases hk : k = t
    · rw [lookup_pair_cons, if_pos hk.symm] at hl
      have hm : m = n := by injection hl
      have hrest : setNeuron rest t n1 = rest :=
        setNeuron_of_not_mem rest t n1 (hk ▸ hnd.1)
      rw [if_pos hk, hrest]
      simp [hm]
      omega
    · rw [lookup_pair_cons, if_neg (Ne.symm hk)] at hl
      have := ih hnd.2 hl
      rw [if_neg hk]
      simp only [List.map_cons, List.sum_cons]
      omega

/-- Input neuron 1 of the concrete counterexample graphs. -/
def inputN1 : Neuron := { defaultNeuron with nid := 1, ty := "input" }

/-- Dense neuron 2 of the adjust_weight counterexample graph, with the
single fan-in connection (source 1, weight 1/2). -/
def denseN2 : Neuron :=
  { defaultNeuron with nid := 2, ty := "dense", connections := [(1, 1 / 2)] }

/-- The concrete graph of the adjust_weight counterexample: input neuron 1
and dense neuron 2 whose fan-in holds the single connection
(source 1, weight 1/2), i.e. one edge from node 1 to node 2. -/
def bp9 : Blueprint :=
  { neurons := [(1, inputN1), (2, denseN2)],
    inputNodes := [1], outputNodes := [2], scalarActivationMap := none }

/-- C9, counterexample.  On `bp9`, getRandomExistingConnectionPair reports
the single stored connection as the pair (2, 1) — the owning node first and
the stored source second — and the adjust_weight modification with delta
1/10 then appends the connection (2, 3/5) to neuron 1 instead of
reweighting: the original connection of neuron 2 keeps weight 1/2, nothing
is removed, and the total connection count grows from 1 to 2, refuting the
removal-and-re-add description and the unchanged-total consequence of the
claim. -/
theorem c9_counterexample :
    (adjustWeightModification bp9 2 1 (1 / 10)).1 = none ∧
      (adjustWeightModification bp9 2 1 (1 / 10)).2.neurons =
        [(1, appendConn inputN1 2 (1 / 2 + 1 / 10)), (2, denseN2)] ∧
      ((1 : ℚ) / 2 + 1 / 10) = 3 / 5 ∧
      totalConnections (adjustWeightModification bp9 2 1 (1 / 10)).2 = 2 ∧
      totalConnections bp9 = 1 ∧
      totalConnections (adjustWeightModification bp9 2 1 (1 / 10)).2 ≠
        totalConnections bp9 := by
  refine ⟨rfl, rfl, by norm_num, by decide, by decide, by decide⟩

/-- C9, amended.  The adjust_weight modification computes the new weight as
the stored weight plus the delta and hands the pair unchanged to
addConnection, which appends unconditionally: when the addressed node
exists (and table keys are distinct, as for a Go map), the call succeeds,
the addressed node's connection list is the old list with the new pair
appended at the end — the old connection is never removed and no existence
check is made — and the total connection count grows by one.  The
duplicate-avoidance existence check applies only to the selection of
candidate pairs for add_connection. -/
theorem c9_amended (bp : Blueprint) (s t : ℤ) (δ : ℚ) (n : Neuron)
    (hnd : (bp.neurons.map Prod.fst).Nodup)
    (hl : bp.neurons.lookup t = some n) :
    (adjustWeightModification bp s t δ).1 = none ∧
      (adjustWeightModification bp s t δ).2.neurons.lookup t =
        some (appendConn n s (getConnectionWeight bp s t + δ)) ∧
      totalConnections (adjustWeightModification bp s t δ).2 =
        totalConnections bp + 1 := by
  have hadd : adjustWeightModification bp s t δ =
      (none, { bp with neurons := setNeuron bp.neurons t (appendConn n s (getConnectionWeight bp s t + δ)) }) := by
    unfold adjustWeightModification addConnection lookupNeuron appendConn
    rw [hl]
  rw [hadd]
  refine ⟨rfl, lookup_setNeuron _ _ _ _ hl, ?_⟩
  have h := connSum_setNeuron bp.neurons t n
    (appendConn n s (getConnectionWeight bp s t + δ)) hnd hl
  simp only [appendConn, List.length_append, List.length_cons, List.length_nil] at h
  simp only [totalConnections, appendConn] at *
  omega

/-- C9 witness: the amended statement instantiated on `bp9` with the pair
(2, 1) and delta 1/10. -/
theorem c9_amended_witness :
    (bp9.neurons.map Prod.fst).Nodup ∧
      bp9.neurons.lookup 1 = some inputN1 ∧
      ((adjustWeightModification bp9 2 1 (1 / 10)).1 = none ∧
        (adjustWeightModification bp9 2 1 (1 / 10)).2.neurons.lookup 1 =
          some (appendConn inputN1 2 (getConnectionWeight bp9 2 1 + 1 / 10)) ∧
        totalConnections (adjustWeightModification bp9 2 1 (1 / 10)).2 =
          totalConnections bp9 + 1) :=
  ⟨by decide, by decide,
    c9_amended bp9 2 1 (1 / 10) inputN1 (by decide) (by decide)⟩

/-- An empty graph with a nil activation registry, used as the ambient
graph of neuron-level counterexamples (the registry only matters through
the identity fallback of applyScalarActivation). -/
def bpEmpty : Blueprint :=
  { neurons := [], inputNodes := [], outputNodes := [], scalarActivationMap := none }

/-- The cnn neuron of the C6 counterexample: linear activation, zero bias,
and its own kernel list `[[1]]` (which the claim says would be slid over
the fan-in). -/
def cnnN6 : Neuron :=
  { defaultNeuron with nid := 3, ty := "cnn", activation := "linear", kernels := [[1]] }

/-- C6, counterexample.  ProcessCNNNeuron on the node whose own kernel list
is `[[1]]`: a fan-in of length 1 — over which the claim says the 1-long
kernel slides, and for which the claim says processing succeeds — hits Go's
`make` with the negative length `1 - 3 + 1` and panics (`none`), as does the
empty fan-in for which the claim promises the value 0; and on the fan-in
`[1, 2, 3]` the produced value 9/5 comes from the hard-coded kernel
`[0.2, 0.5, 0.2]` (one window: `1*0.2 + 2*0.5 + 3*0.2`), not from the
node's kernel `[1]`, whose claimed window mean would be 2. -/
theorem c6_counterexample :
    processCNNNeuron bpEmpty cnnN6 [5] = none ∧
      processCNNNeuron bpEmpty cnnN6 [] = none ∧
      processCNNNeuron bpEmpty cnnN6 [1, 2, 3] = some { cnnN6 with value := 9 / 5 } ∧
      (9 / 5 : ℚ) ≠ 2 := by
  refine ⟨rfl, rfl, ?_, by norm_num⟩
  simp [processCNNNeuron, cnnWindow, cnnFixedKernel, applyScalarActivation, bpEmpty,
    goLinear, cnnN6, defaultNeuron, List.range_succ]
  norm_num

/-- C6, amended.  ProcessCNNNeuron ignores the node's own Kernels field
(the produced value is independent of it); it slides the single hard-coded
kernel `[0.2, 0.5, 0.2]` with stride 1 and no padding, so it panics — `make`
with a negative length — exactly when the fan-in is shorter than 2, and
otherwise sets the value to the arithmetic mean over the
`len(fan-in) - 2` windows of `act(bias + window · [0.2, 0.5, 0.2])`
(for fan-in length exactly 2 there are no windows and Go yields `NaN`,
which the `ℚ` model renders as 0/0 = 0). -/
theorem c6_amended (bp : Blueprint) (n : Neuron) (inputs : List ℚ) :
    (∀ ks : List (List ℚ),
        (processCNNNeuron bp { n with kernels := ks } inputs).map Neuron.value =
          (processCNNNeuron bp n inputs).map Neuron.value) ∧
      (processCNNNeuron bp n inputs = none ↔ inputs.length < 2) ∧
      (2 ≤ inputs.length →
        processCNNNeuron bp n inputs = some { n with value :=
          ((List.range (inputs.length - 2)).map (fun i =>
            applyScalarActivation bp
              (n.bias + inputs.getD i 0 * (2 / 10) + inputs.getD (i + 1) 0 * (5 / 10) +
                inputs.getD (i + 2) 0 * (2 / 10))
              n.activation)).sum / ((inputs.length - 2 : ℕ) : ℚ) }) := by
  refine ⟨?_, ?_, ?_⟩
  · intro ks
    have hw : cnnWindow bp { n with kernels := ks } inputs = cnnWindow bp n inputs := by
      funext i; simp [cnnWindow]
    by_cases hcond : inputs.length + 1 < cnnFixedKernel.length <;>
      simp [processCNNNeuron, hw, hcond]
  · by_cases h : inputs.length + 1 < cnnFixedKernel.length
    · simp only [processCNNNeuron, if_pos h]
      simp [cnnFixedKernel] at h ⊢
      omega
    · simp only [processCNNNeuron, if_neg h]
      simp [cnnFixedKernel] at h ⊢
      omega
  · intro h
    have hc : ¬ (inputs.length + 1 < cnnFixedKernel.length) := by
      simp [cnnFixedKernel]; omega
    have hlen : inputs.length + 1 - cnnFixedKernel.length = inputs.length - 2 := by
      simp [cnnFixedKernel]
    have hw : cnnWindow bp n inputs = fun i =>
        applyScalarActivation bp
          (n.bias + inputs.getD i 0 * (2 / 10) + inputs.getD (i + 1) 0 * (5 / 10) +
            inputs.getD (i + 2) 0 * (2 / 10)) n.activation := by
      funext i
      simp [cnnWindow, cnnFixedKernel, List.range_succ]
    unfold processCNNNeuron
    rw [if_neg hc, hlen, hw]
    simp [List.sum_eq_foldl]

/-- C6 witness: the amended statement instantiated on the fan-in
`[1, 2, 3]`, whose length satisfies the window hypothesis. -/
theorem c6_amended_witness :
    (2 ≤ ([1, 2, 3] : List ℚ).length) ∧
      processCNNNeuron bpEmpty cnnN6 [1, 2, 3] = some { cnnN6 with value :=
        ((List.range (([1, 2, 3] : List ℚ).length - 2)).map (fun i =>
          applyScalarActivation bpEmpty
            (cnnN6.bias + ([1, 2, 3] : List ℚ).getD i 0 * (2 / 10) +
              ([1, 2, 3] : List ℚ).getD (i + 1) 0 * (5 / 10) +
              ([1, 2, 3] : List ℚ).getD (i + 2) 0 * (2 / 10))
            cnnN6.activation)).sum / ((([1, 2, 3] : List ℚ).length - 2 : ℕ) : ℚ) } :=
  ⟨by norm_num, (c6_amended bpEmpty cnnN6 [1, 2, 3]).2.2 (by norm_num)⟩

/-- C8.  addConnection reports an error exactly when the target neuron is
missing from the node table, and in that case the graph is returned
completely unchanged; InsertNeuronOfTypeBetweenInputsAndOutputs rejects an
unsupported neuron kind up front with an error, before any table entry,
connection list, or ID list has been touched, leaving graph and draw
counter unchanged. -/
theorem c8_structural_errors :
    (∀ (bp : Blueprint) (s t : ℤ) (w : ℚ),
        ((addConnection bp s t w).1.isSome = true ↔ lookupNeuron bp.neurons t = none) ∧
          ((addConnection bp s t w).1.isSome = true → (addConnection bp s t w).2 = bp)) ∧
      (∀ (bp : Blueprint) (ty : String) (rngF : ℕ → ℚ) (rngI : ℕ → ℕ) (k : ℕ),
        isValidNeuronType ty = false →
          insertNeuronOfTypeBetweenInputsAndOutputs rngF rngI bp ty k =
            (some ("invalid neuron type: " ++ ty), bp, k)) := by
  constructor
  · intro bp s t w
    unfold addConnection lookupNeuron
    cases h : bp.neurons.lookup t <;> simp [h]
  · intro bp ty rngF rngI k h
    unfold insertNeuronOfTypeBetweenInputsAndOutputs
    simp [h]

/-- C8 witness: the unsupported kind named quantum is rejected on `bp9`
without touching it, and addConnection towards the absent node 7 errors
without touching it. -/
theorem c8_structural_errors_witness :
    isValidNeuronType "quantum" = false ∧
      insertNeuronOfTypeBetweenInputsAndOutputs (fun _ => 0) (fun _ => 0) bp9 "quantum" 0 =
        (some ("invalid neuron type: " ++ "quantum"), bp9, 0) ∧
      ((addConnection bp9 1 7 (1 / 2)).1.isSome = true ↔
        lookupNeuron bp9.neurons 7 = none) ∧
      ((addConnection bp9 1 7 (1 / 2)).1.isSome = true →
        (addConnection bp9 1 7 (1 / 2)).2 = bp9) :=
  ⟨by decide,
   c8_structural_errors.2 bp9 "quantum" (fun _ => 0) (fun _ => 0) 0 (by decide),
   (c8_structural_errors.1 bp9 1 7 (1 / 2)).1,
   (c8_structural_errors.1 bp9 1 7 (1 / 2)).2⟩

/-- The amended per-session generous similarity: the mean absolute error
is taken only over the expected keys present in the predicted map (missing
keys are skipped, not scored as error 1), the result `1 - mean` is clamped
below at 0 and stays on the 0-1 scale (never multiplied by 100), and a
session with an empty map or no common key scores 0. -/
def amendedGenerousValue (predicted expected : List (ℤ × ℚ)) : ℚ :=
  let common := expected.filter (fun p => (predicted.lookup p.1).isSome)
  if predicted.length = 0 ∨ expected.length = 0 ∨ common.length = 0 then 0
  else max 0 (1 - (common.map (fun p => |(predicted.lookup p.1).getD 0 - p.2|)).sum /
    (common.length : ℚ))

/-- The accumulation loop of calculateGenerousValue in closed form. -/
theorem genFold (predicted : List (ℤ × ℚ)) (expected : List (ℤ × ℚ)) (a : ℚ) (c : ℕ) :
    expected.foldl (genStep predicted) (a, c) =
      (a + ((expected.filter (fun p => (predicted.lookup p.1).isSome)).map
          (fun p => |(predicted.lookup p.1).getD 0 - p.2|)).sum,
        c + (expected.filter (fun p => (predicted.lookup p.1).isSome)).length) := by
  induction expected generalizing a c with
  | nil => simp
  | cons q rest ih =>
    cases hq : predicted.lookup q.1 with
    | none => simp [List.foldl_cons, genStep, hq, ih]
    | some pv =>
      simp only [List.foldl_cons, List.filter_cons, hq, Option.isSome_some, if_pos]
      rw [show genStep predicted (a, c) q = (a + |pv - q.2|, c + 1) by simp [genStep, hq]]
      rw [ih]
      simp [hq]
      exact ⟨by ring, by omega⟩

/-- calculateGenerousValue coincides with its closed form. -/
theorem calculateGenerousValue_eq (predicted expected : List (ℤ × ℚ)) :
    calculateGenerousValue predicted expected = amendedGenerousValue predicted expected := by
  unfold calculateGenerousValue amendedGenerousValue
  by_cases h0 : predicted.length = 0 ∨ expected.length = 0
  · have h0e : predicted = [] ∨ expected = [] := by
      rcases h0 with h | h
      · exact Or.inl (List.length_eq_zero.mp h)
      · exact Or.inr (List.length_eq_zero.mp h)
    rcases h0 with h | h <;> simp [h0e, h]
  · rw [if_neg h0]
    simp only [genFold predicted expected 0 0, zero_add, Nat.zero_add]
    by_cases hc : (expected.filter (fun p => (predicted.lookup p.1).isSome)).length = 0
    · simp [hc, h0]
    · have hdisj : ¬ (predicted.length = 0 ∨ expected.length = 0 ∨
          (expected.filter (fun p => (predicted.lookup p.1).isSome)).length = 0) := by
        push_neg
        push_neg at h0
        exact ⟨h0.1, h0.2, hc⟩
      rw [if_neg hc, if_neg hdisj]
      rcases le_or_lt 0 (1 - ((expected.filter (fun p => (predicted.lookup p.1).isSome)).map
          (fun p => |(predicted.lookup p.1).getD 0 - p.2|)).sum /
          ((expected.filter (fun p => (predicted.lookup p.1).isSome)).length : ℚ)) with hle | hlt
      · rw [if_neg (not_lt.mpr hle), max_eq_right hle]
      · rw [if_pos hlt, max_eq_left (le_of_lt hlt)]

/-- The generous accumulator of the evaluation loop in closed form. -/
theorem evalFold_generous (ops : RealOps) (ocs : List Outcome) (acc : EvalAcc) :
    (ocs.foldl (evalStep ops) acc).totalGenerousValue =
      acc.totalGenerousValue + (ocs.map (fun oc => calculateGenerousValue oc.1 oc.2)).sum := by
  induction ocs generalizing acc with
  | nil => simp
  | cons oc rest ih =>
    simp only [List.foldl_cons, List.map_cons, List.sum_cons, ih]
    simp [evalStep]
    ring

/-- C3, counterexample.  One session whose predicted output map holds key 1
with value 0 while the expected map holds keys 1 and 2: the claim's formula
(missing key scored as error 1, averaged over both keys, times 100) gives
50, but EvaluateModelPerformance skips the missing key entirely and returns
the 0-1-scale value 1. -/
theorem c3_counterexample :
    (evalOutcomes ops0
        [([((1 : ℤ), (0 : ℚ))], [((1 : ℤ), (0 : ℚ)), (2, 1)])]).generousAccuracy = 1 ∧
      specGenerousAccuracy [([((1 : ℤ), (0 : ℚ))], [((1 : ℤ), (0 : ℚ)), (2, 1)])] = 50 ∧
      (evalOutcomes ops0
          [([((1 : ℤ), (0 : ℚ))], [((1 : ℤ), (0 : ℚ)), (2, 1)])]).generousAccuracy ≠
        specGenerousAccuracy [([((1 : ℤ), (0 : ℚ))], [((1 : ℤ), (0 : ℚ)), (2, 1)])] := by
  refine ⟨?_, ?_, ?_⟩
  · unfold evalOutcomes
    simp only [evalFold_generous]
    simp [calculateGenerousValue, genStep, List.lookup]
  · simp [specGenerousAccuracy, specGenerousValue, List.lookup]
    norm_num
  · intro he
    rw [show (evalOutcomes ops0
        [([((1 : ℤ), (0 : ℚ))], [((1 : ℤ), (0 : ℚ)), (2, 1)])]).generousAccuracy = 1 by
        unfold evalOutcomes
        simp only [evalFold_generous]
        simp [calculateGenerousValue, genStep, List.lookup]] at he
    rw [show specGenerousAccuracy
        [([((1 : ℤ), (0 : ℚ))], [((1 : ℤ), (0 : ℚ)), (2, 1)])] = 50 by
        simp [specGenerousAccuracy, specGenerousValue, List.lookup]
        norm_num] at he
    norm_num at he

/-- C3, amended.  For every session list (with arbitrary transcendental
maps), the generous accuracy returned by EvaluateModelPerformance equals
the average over sessions of `max(0, 1 - MAE')`, where `MAE'` is the mean
absolute error over only those expected keys that are present in the
predicted map — a missing predicted key is skipped, not scored as error 1 —
on the 0-1 scale with no conversion to a percentage; a session with an
empty predicted or expected map, or with no common key, contributes 0. -/
theorem c3_amended (ops : RealOps) (ocs : List Outcome) :
    (evalOutcomes ops ocs).generousAccuracy =
      (ocs.map (fun oc => amendedGenerousValue oc.1 oc.2)).sum / (ocs.length : ℚ) := by
  unfold evalOutcomes
  simp only [evalFold_generous ops ocs ⟨0, 0, 0, 0, 0, 0⟩]
  simp [calculateGenerousValue_eq]

/-- Reference-decile scan outcome, stated without the scan: after dropping
the leading zero deciles, every remaining decile must equal the first
non-zero one (the reference slot being initialised to 0 makes leading
zeros transparent). -/
def allEqAfterFirstNonzero (l : List ℤ) : Bool :=
  match l.dropWhile (fun d => d == 0) with
  | [] => true
  | d :: rest => rest.all (fun x => x == d)

/-- The per-key decile buckets of a session, in expected-map order
(missing predicted keys read as 0 here; the membership conjunct of the
characterisation handles them). -/
def decileList (predicted expected : List (ℤ × ℚ)) : List ℤ :=
  expected.map (fun p => decileOf ((predicted.lookup p.1).getD 0) p.2)

/-- The decile scan with a non-zero reference accepts exactly when every
key is predicted and every decile equals the reference. -/
theorem decileScan_nonzero (predicted : List (ℤ × ℚ)) (expected : List (ℤ × ℚ))
    (ref : ℤ) (h : ref ≠ 0) :
    decileScan predicted ref expected =
      (expected.all (fun p => (predicted.lookup p.1).isSome) &&
        (decileList predicted expected).all (fun x => x == ref)) := by
  induction expected with
  | nil => simp [decileScan, decileList]
  | cons q rest ih =>
    cases hq : predicted.lookup q.1 with
    | none => simp [decileScan, decileList, hq]
    | some pv =>
      have hdl : decileList predicted (q :: rest) =
          decileOf pv q.2 :: decileList predicted rest := by
        simp [decileList, hq]
      rw [decileScan]
      simp only [hq]
      rw [if_neg h]
      by_cases hd : ref ≠ decileOf pv q.2
      · rw [if_pos hd, hdl]
        have hb : (decileOf pv q.2 == ref) = false :=
          beq_eq_false_iff_ne.mpr (Ne.symm hd)
        simp [List.all_cons, hb]
      · rw [if_neg hd]
        push_neg at hd
        rw [ih, hdl]
        have hb : (decileOf pv q.2 == ref) = true := by simp [hd]
        simp [List.all_cons, hq, hb]

/-- The decile scan as used by isDecileConsistent (reference initialised to
0) accepts exactly when every key is predicted and all deciles after the
first non-zero one equal it. -/
theorem decileScan_zero (predicted : List (ℤ × ℚ)) (expected : List (ℤ × ℚ)) :
    decileScan predicted 0 expected =
      (expected.all (fun p => (predicted.lookup p.1).isSome) &&
        allEqAfterFirstNonzero (decileList predicted expected)) := by
  induction expected with
  | nil => simp [decileScan, decileList, allEqAfterFirstNonzero]
  | cons q rest ih =>
    cases hq : predicted.lookup q.1 with
    | none => simp [decileScan, decileList, hq]
    | some pv =>
      have hdl : decileList predicted (q :: rest) =
          decileOf pv q.2 :: decileList predicted rest := by
        simp [decileList, hq]
      rw [decileScan]
      simp only [hq, eq_self_iff_true, if_true]
      by_cases hd : decileOf pv q.2 = 0
      · rw [hd, ih, hdl, hd]
        have hskip : allEqAfterFirstNonzero ((0 : ℤ) :: decileList predicted rest) =
            allEqAfterFirstNonzero (decileList predicted rest) := by
          simp [allEqAfterFirstNonzero, List.dropWhile]
        simp [hskip, List.all_cons, hq]
      · rw [decileScan_nonzero predicted rest _ hd, hdl]
        have hstop : allEqAfterFirstNonzero (decileOf pv q.2 :: decileList predicted rest) =
            (decileList predicted rest).all (fun x => x == decileOf pv q.2) := by
          simp [allEqAfterFirstNonzero, List.dropWhile, beq_eq_false_iff_ne.mpr hd]
        simp [hstop, List.all_cons, hq]

/-- isDecileConsistent, characterised without the scan. -/
theorem isDecileConsistent_eq (predicted expected : List (ℤ × ℚ)) :
    isDecileConsistent predicted expected =
      (expected.all (fun p => (predicted.lookup p.1).isSome) &&
        allEqAfterFirstNonzero (decileList predicted expected)) :=
  decileScan_zero predicted expected

/-- The decile-consistency counter of the evaluation loop in closed form. -/
theorem evalFold_decile (ops : RealOps) (ocs : List Outcome) (acc : EvalAcc) :
    (ocs.foldl (evalStep ops) acc).decileConsistentCount =
      acc.decileConsistentCount + ocs.countP (fun oc => isDecileConsistent oc.1 oc.2) := by
  induction ocs generalizing acc with
  | nil => simp
  | cons oc rest ih =>
    simp only [List.foldl_cons, List.countP_cons, ih]
    by_cases hd : isDecileConsistent oc.1 oc.2 <;> simp [evalStep, hd] <;> omega

/-- C4, counterexample.  One session with expected output 1 on key 1 and
predicted output 0: every relative tolerance band around the expected value
excludes the prediction (shown for t = 1/10), so the claim's forgiveness
metric scores the session list 0, yet the third metric actually returned by
EvaluateModelPerformance — decile consistency — scores it 100, since the
single absolute error 1 lands in the capped decile 9 and a single decile is
always consistent. -/
theorem c4_counterexample :
    (evalOutcomes ops0
        [([((1 : ℤ), (0 : ℚ))], [((1 : ℤ), (1 : ℚ))])]).decileConsistencyAccuracy = 100 ∧
      specForgivenessAccuracy (1 / 10) [([((1 : ℤ), (0 : ℚ))], [((1 : ℤ), (1 : ℚ))])] = 0 ∧
      (evalOutcomes ops0
          [([((1 : ℤ), (0 : ℚ))], [((1 : ℤ), (1 : ℚ))])]).decileConsistencyAccuracy ≠
        specForgivenessAccuracy (1 / 10) [([((1 : ℤ), (0 : ℚ))], [((1 : ℤ), (1 : ℚ))])] := by
  have h1 : (evalOutcomes ops0
      [([((1 : ℤ), (0 : ℚ))], [((1 : ℤ), (1 : ℚ))])]).decileConsistencyAccuracy = 100 := by
    unfold evalOutcomes
    simp only [evalFold_decile]
    simp [isDecileConsistent, decileScan, decileOf, List.lookup]
  have h2 : specForgivenessAccuracy (1 / 10)
      [([((1 : ℤ), (0 : ℚ))], [((1 : ℤ), (1 : ℚ))])] = 0 := by
    simp [specForgivenessAccuracy, specSessionForgiven, List.lookup]
    refine ⟨1, 1, ⟨rfl, rfl⟩, ?_⟩
    norm_num
  refine ⟨h1, h2, ?_⟩
  rw [h1, h2]
  norm_num

/-- C4, amended.  The third accuracy metric returned by
EvaluateModelPerformance is the decile-consistency percentage: the share of
sessions in which every expected key has a predicted value and the per-key
absolute-error deciles (`⌊|pred - exp| / 0.1⌋` capped at 9, taken in map
order) all equal the first non-zero one — leading zero deciles are absorbed
by the reference slot.  No relative tolerance band is applied and no
caller-supplied threshold is consulted (the evaluator takes none). -/
theorem c4_amended (ops : RealOps) (ocs : List Outcome) :
    (evalOutcomes ops ocs).decileConsistencyAccuracy =
      ((ocs.countP (fun oc =>
          oc.2.all (fun p => (oc.1.lookup p.1).isSome) &&
            allEqAfterFirstNonzero (decileList oc.1 oc.2))) : ℚ) /
        (ocs.length : ℚ) * 100 := by
  unfold evalOutcomes
  simp only [evalFold_decile ops ocs ⟨0, 0, 0, 0, 0, 0⟩]
  have hc : ocs.countP (fun oc => isDecileConsistent oc.1 oc.2) =
      ocs.countP (fun oc =>
        oc.2.all (fun p => (oc.1.lookup p.1).isSome) &&
          allEqAfterFirstNonzero (decileList oc.1 oc.2)) := by
    apply List.countP_congr
    intro oc _
    rw [isDecileConsistent_eq]
  simp [hc]

/-- Dense neuron 3 of the skipped-node graph: linear activation, zero
bias, one connection from node 1 with weight 1, value 0. -/
def denseN3 : Neuron :=
  { defaultNeuron with nid := 3, ty := "dense", activation := "linear", connections := [(1, 1)] }

/-- The skipped-node graph: the table holds IDs 1 (input) and 3 (dense), so
it has two entries but node 3's ID exceeds the table size — the shape
RemoveNeuron leaves behind after deleting an interior node. -/
def bp5 (ops : RealOps) : Blueprint :=
  { neurons := [(1, inputN1), (3, denseN3)],
    inputNodes := [1], outputNodes := [3],
    scalarActivationMap := some (scalarActivationFunctions ops) }

/-- C5.  Forward's per-timestep loop visits only the IDs 1 .. table size
(here [1, 2]), so on `bp5` the non-input node 3 is never processed in any
timestep: after a full timestep with input 2 on node 1 the state is exactly
the input assignment — node 3 still reads `some denseN3` with value 0 —
although processing node 3 (as the claim requires of every non-input node)
would set its value to 2.  Evaluating the code at the failing input
exhibits the divergence for every choice of transcendental maps and random
stream. -/
theorem c5_forward_skips_high_ids (ops : RealOps) (rngF : ℕ → ℚ) :
    (∀ id ∈ forwardIds (bp5 ops), id ≠ 3) ∧
      (bp5 ops).neurons.lookup 3 = some denseN3 ∧
      denseN3.ty ≠ "input" ∧ denseN3.value = 0 ∧
      forwardLoop ops rngF 1 (setInputs (bp5 ops) [(1, 2)], 0) =
        some (setInputs (bp5 ops) [(1, 2)], 0) ∧
      (setInputs (bp5 ops) [(1, 2)]).neurons.lookup 3 = some denseN3 ∧
      (processDenseNeuron (setInputs (bp5 ops) [(1, 2)]) denseN3
          (gatherInputs (setInputs (bp5 ops) [(1, 2)]) denseN3)).value = 2 := by
  refine ⟨?_, rfl, by simp [denseN3, defaultNeuron], rfl, rfl, rfl, ?_⟩
  · intro id hid
    simp [forwardIds, bp5, List.range'] at hid
    omega
  · simp [processDenseNeuron, gatherInputs, setInputs, bp5, denseN3, inputN1,
      defaultNeuron, applyScalarActivation, scalarActivationFunctions, goLinear,
      List.lookup, lookupNeuron, setNeuron]

/-- Output neuron 2 of the missing-output graphs. -/
def outN2 : Neuron := { defaultNeuron with nid := 2, ty := "dense" }

/-- A graph whose output list names the missing node 7 before the existing
node 2. -/
def bp7 : Blueprint :=
  { neurons := [(2, outN2)], inputNodes := [], outputNodes := [7, 2],
    scalarActivationMap := none }

/-- A graph whose only listed output node, 9, is missing from the table. -/
def bp7all : Blueprint :=
  { neurons := [(2, outN2)], inputNodes := [], outputNodes := [9],
    scalarActivationMap := none }

/-- C7.  ApplySoftmax does not tolerate a missing output node: on `bp7`
(missing output 7 listed before the existing output 2) the assignment loop
indexes the one-element softmax slice at position 1 and panics, and on
`bp7all` (every output missing) Softmax reads `inputs[0]` of an empty slice
and panics — in both cases the embedded ApplySoftmax returns `none`
(the Go panic) instead of completing with the missing contribution
skipped. -/
theorem c7_applySoftmax_panics (ops : RealOps) :
    lookupNeuron bp7.neurons 7 = none ∧ lookupNeuron bp7.neurons 2 = some outN2 ∧
      applySoftmax ops bp7 = none ∧
      lookupNeuron bp7all.neurons 9 = none ∧
      applySoftmax ops bp7all = none :=
  ⟨rfl, rfl, rfl, rfl, rfl⟩

/-- The hidden relu neuron of the C10 divergence graph: fan-in weight -1
from the input, so its pre-activation is negative and relu differs from
the identity. -/
def reluHidden : Neuron :=
  { defaultNeuron with nid := 2, ty := "dense", activation := "relu", connections := [(1, -1)] }

/-- The linear output neuron of the C10 divergence graph, fed by the
hidden relu neuron. -/
def linOut3 : Neuron :=
  { defaultNeuron with nid := 3, ty := "dense", activation := "linear", connections := [(2, 1)] }

/-- The C10 divergence graph: input 1, hidden relu node 2, linear output
3, with an initialised activation registry. -/
def bp10 (ops : RealOps) : Blueprint :=
  { neurons := [(1, inputN1), (2, reluHidden), (3, linOut3)],
    inputNodes := [1], outputNodes := [3],
    scalarActivationMap := some (scalarActivationFunctions ops) }

/-- The output relu neuron of the C10 coincidence graph: fan-in weight +1,
so its pre-activation is positive and relu coincides with the identity. -/
def reluOut2 : Neuron :=
  { defaultNeuron with nid := 2, ty := "dense", activation := "relu", connections := [(1, 1)] }

/-- The C10 coincidence graph: input 1 feeding the relu output 2 with
weight 1. -/
def bp10eq (ops : RealOps) : Blueprint :=
  { neurons := [(1, inputN1), (2, reluOut2)],
    inputNodes := [1], outputNodes := [2],
    scalarActivationMap := some (scalarActivationFunctions ops) }

/-- C10, counterexample.  The graph `bp10eq` contains a node with the
non-linear activation relu, yet forward propagation on its serialize/
deserialize copy produces exactly the same node table as on the original
(the relu argument 2 is non-negative, so the identity fallback agrees with
relu): the claim's final consequence does not hold for every graph with a
non-linear activation. -/
theorem c10_counterexample :
    (serializeRoundTrip (bp10eq ops0)).scalarActivationMap = none ∧
      ((bp10eq ops0).neurons.lookup 2).map Neuron.activation = some "relu" ∧
      (forward ops0 (fun _ => 0) (serializeRoundTrip (bp10eq ops0)) [(1, 2)] 1 0).map
          (fun st => st.1.neurons) =
        (forward ops0 (fun _ => 0) (bp10eq ops0) [(1, 2)] 1 0).map
          (fun st => st.1.neurons) := by
  refine ⟨rfl, rfl, ?_⟩
  simp [forward, forwardLoop, forwardTimestep, foldVisit, forwardIds, forwardVisit,
    setInputs, serializeRoundTrip, bp10eq, inputN1, reluOut2, defaultNeuron,
    lookupNeuron, setNeuron, List.lookup, processNeuron, processDenseNeuron,
    gatherInputs, applyScalarActivation, goLinear, goReLU, scalarActivationFunctions,
    applySoftmax, softmaxSlice, assignSoftmax, List.range', ops0]

/-- C10, amended.  The serialize/deserialize round trip used for worker
isolation leaves the copy's activation registry nil, so on the copy
ApplyScalarActivation returns its argument unchanged for every activation
name; consequently forward propagation on the copy is not equivalent to
forward propagation on the original in general — on the graph `bp10`,
whose relu node receives the negative pre-activation -2, the copy leaves
the node at -2 where the original computes 0 — although graphs with a
non-linear activation exist on which the two coincide. -/
theorem c10_amended (ops : RealOps) (rngF : ℕ → ℚ) :
    (∀ bp : Blueprint, (serializeRoundTrip bp).scalarActivationMap = none) ∧
      (∀ (bp : Blueprint) (v : ℚ) (name : String),
        applyScalarActivation (serializeRoundTrip bp) v name = v) ∧
      ((forward ops rngF (serializeRoundTrip (bp10 ops)) [(1, 2)] 1 0).bind
          (fun st => (st.1.neurons.lookup 2).map Neuron.value) = some (-2) ∧
        (forward ops rngF (bp10 ops) [(1, 2)] 1 0).bind
          (fun st => (st.1.neurons.lookup 2).map Neuron.value) = some 0) := by
  refine ⟨fun bp => rfl, fun bp v name => rfl, ?_, ?_⟩
  · simp [forward, forwardLoop, forwardTimestep, foldVisit, forwardIds, forwardVisit,
      setInputs, serializeRoundTrip, bp10, inputN1, reluHidden, linOut3, defaultNeuron,
      lookupNeuron, setNeuron, List.lookup, processNeuron, processDenseNeuron,
      gatherInputs, applyScalarActivation, goLinear, applySoftmax, softmaxSlice,
      assignSoftmax, List.range', Option.bind]
  · simp [forward, forwardLoop, forwardTimestep, foldVisit, forwardIds, forwardVisit,
      setInputs, serializeRoundTrip, bp10, inputN1, reluHidden, linOut3, defaultNeuron,
      lookupNeuron, setNeuron, List.lookup, processNeuron, processDenseNeuron,
      gatherInputs, applyScalarActivation, goLinear, goReLU, scalarActivationFunctions,
      applySoftmax, softmaxSlice, assignSoftmax, List.range', Option.bind]

/-- The clone-via-serialization counter never decreases. -/

theorem cloneConns_counter (cs : List HConn) (k : ℕ) : k ≤ (cloneConns cs k).2 := by
  induction cs generalizing k with
  | nil => simp [cloneConns]
  | cons c cs ih => exact le_trans (Nat.le_succ k) (ih (k + 1))

theorem cloneConns_tags (cs : List HConn) (k : ℕ) :
    ∀ t ∈ (cloneConns cs k).1.map HConn.tag, k ≤ t := by
  induction cs generalizing k with
  | nil => simp [cloneConns]
  | cons c cs ih =>
    intro t ht
    simp only [cloneConns, List.map_cons, List.mem_cons] at ht
    rcases ht with h | h
    · omega
    · exact le_trans (Nat.le_succ k) (ih (k + 1) t h)

theorem cloneGates_counter (gs : List HGate) (k : ℕ) : k ≤ (cloneGates gs k).2 := by
  induction gs generalizing k with
  | nil => simp [cloneGates]
  | cons g gs ih => exact le_trans (Nat.le_succ k) (ih (k + 1))

theorem cloneGates_tags (gs : List HGate) (k : ℕ) :
    ∀ t ∈ (cloneGates gs k).1.map HGate.tag, k ≤ t := by
  induction gs generalizing k with
  | nil => simp [cloneGates]
  | cons g gs ih =>
    intro t ht
    simp only [cloneGates, List.map_cons, List.mem_cons] at ht
    rcases ht with h | h
    · omega
    · exact le_trans (Nat.le_succ k) (ih (k + 1) t h)

theorem cloneNeuron_counter (n : HNeuron) (k : ℕ) : k ≤ (cloneNeuron n k).2 := by
  unfold cloneNeuron
  exact le_trans (Nat.le_succ k)
    (le_trans (cloneConns_counter n.conns (k + 1)) (cloneGates_counter n.gates _))

theorem cloneNeuron_tags (n : HNeuron) (k : ℕ) :
    ∀ t ∈ (cloneNeuron n k).1.tags, k ≤ t := by
  intro t ht
  unfold cloneNeuron at ht
  simp only [HNeuron.tags, List.mem_cons, List.mem_append] at ht
  rcases ht with h | h | h
  · omega
  · exact le_trans (Nat.le_succ k) (cloneConns_tags n.conns (k + 1) t h)
  · exact le_trans (Nat.le_succ k)
      (le_trans (cloneConns_counter n.conns (k + 1))
        (cloneGates_tags n.gates _ t h))

theorem cloneTable_counter (tbl : List (ℤ × HNeuron)) (k : ℕ) :
    k ≤ (cloneTable tbl k).2 := by
  induction tbl generalizing k with
  | nil => simp [cloneTable]
  | cons p rest ih =>
    exact le_trans (cloneNeuron_counter p.2 k) (ih _)

theorem cloneTable_tags (tbl : List (ℤ × HNeuron)) (k : ℕ) :
    ∀ t ∈ ((cloneTable tbl k).1.map (fun p => p.2.tags)).flatten, k ≤ t := by
  induction tbl generalizing k with
  | nil => simp [cloneTable]
  | cons p rest ih =>
    intro t ht
    simp only [cloneTable, List.map_cons, List.flatten_cons, List.mem_append] at ht
    rcases ht with h | h
    · exact cloneNeuron_tags p.2 k t h
    · exact le_trans (cloneNeuron_counter p.2 k) (ih _ t h)

theorem clone_tags (bp : HBlueprint) (k : ℕ) :
    ∀ t ∈ (clone bp k).1.tags, k ≤ t := by
  intro t ht
  simp only [clone, HBlueprint.tags, List.mem_cons] at ht
  rcases ht with h | h | h | h
  · omega
  · omega
  · omega
  · exact le_trans (by omega) (cloneTable_tags bp.table (k + 3) t h)

theorem cloneConns_observe (cs : List HConn) (k : ℕ) :
    (cloneConns cs k).1.map observeConn = cs.map observeConn := by
  induction cs generalizing k with
  | nil => simp [cloneConns]
  | cons c cs ih => simp [cloneConns, observeConn, ih]

theorem cloneGates_observe (gs : List HGate) (k : ℕ) :
    (cloneGates gs k).1.map observeGate = gs.map observeGate := by
  induction gs generalizing k with
  | nil => simp [cloneGates]
  | cons g gs ih => simp [cloneGates, observeGate, ih]

theorem cloneNeuron_observe (n : HNeuron) (k : ℕ) :
    observeNeuron (cloneNeuron n k).1 = observeNeuron n := by
  simp [cloneNeuron, observeNeuron, cloneConns_observe, cloneGates_observe]

theorem cloneTable_observe (tbl : List (ℤ × HNeuron)) (k : ℕ) :
    (cloneTable tbl k).1.map (fun p => (p.1, observeNeuron p.2)) =
      tbl.map (fun p => (p.1, observeNeuron p.2)) := by
  induction tbl generalizing k with
  | nil => simp [cloneTable]
  | cons p rest ih => simp [cloneTable, cloneNeuron_observe, ih]

theorem clone_observe (bp : HBlueprint) (k : ℕ) :
    observeBlueprint (clone bp k).1 = observeBlueprint bp := by
  simp [clone, observeBlueprint, cloneTable_observe]

theorem hwriteNeuron_frame (wr : HWrite) (n : HNeuron) (h : wr.tag ∉ n.tags) :
    hwriteNeuron wr n = n := by
  cases wr with
  | weightAt t w =>
    simp only [HWrite.tag, HNeuron.tags, List.mem_cons, List.mem_append, List.mem_map] at h
    push_neg at h
    simp only [hwriteNeuron]
    rw [list_map_fix n.conns (hwriteConn t w) (fun c hc => by
      simp [hwriteConn, h.2.1 c hc])]
  | connsAt t cs =>
    simp only [HWrite.tag, HNeuron.tags, List.mem_cons, List.mem_append, List.mem_map] at h
    push_neg at h
    simp only [hwriteNeuron]
    rw [if_neg (fun he => h.1 he.symm)]
  | gateAt t ws =>
    simp only [HWrite.tag, HNeuron.tags, List.mem_cons, List.mem_append, List.mem_map] at h
    push_neg at h
    simp only [hwriteNeuron]
    rw [list_map_fix n.gates _ (fun g hg => by
      simp [h.2.2 g hg])]
  | tableAt t tbl => rfl
  | idsAt t ids => rfl

theorem hwrite_frame (wr : HWrite) (bp : HBlueprint) (h : wr.tag ∉ bp.tags) :
    hwrite wr bp = bp := by
  simp only [HBlueprint.tags, List.mem_cons, List.mem_flatten, List.mem_map] at h
  push_neg at h
  obtain ⟨ht, hin, hout, hrest⟩ := h
  have hnf : ∀ p ∈ bp.table, wr.tag ∉ p.2.tags := by
    intro p hp hmem
    exact hrest p.2.tags ⟨p, hp, rfl⟩ hmem
  have htab : bp.table.map (fun p => (p.1, hwriteNeuron wr p.2)) = bp.table := by
    apply list_map_fix
    intro p hp
    rw [hwriteNeuron_frame wr p.2 (hnf p hp)]
  cases wr with
  | weightAt t w => simp only [hwrite]; rw [htab]
  | connsAt t cs => simp only [hwrite]; rw [htab]
  | gateAt t ws => simp only [hwrite]; rw [htab]
  | tableAt t tbl =>
    simp only [hwrite, HWrite.tag] at *
    rw [if_neg (fun he => ht he.symm)]
  | idsAt t ids =>
    simp only [hwrite, HWrite.tag] at *
    have hbp1 : (if bp.inTag = t then { bp with inputNodes := ids } else bp) = bp :=
      if_neg (fun he => hin he.symm)
    rw [hbp1, if_neg (fun he => hout he.symm)]

/-- C1.  Clone never shares mutable storage with its source: for a graph
whose allocation tags all lie below the counter, every tag of the clone is
fresh, the clone observes equal to the source, a heap write addressed at
any storage owned by the clone leaves the source bit-for-bit unchanged,
and a heap write addressed at any storage owned by the source leaves the
clone unchanged — for every observable field named by the claim
(connection weight cells, connection lists, gate-weight vectors, the node
table, the input/output ID lists). -/
theorem c1_clone_independence (bp : HBlueprint) (k : ℕ)
    (h : ∀ t ∈ bp.tags, t < k) :
    observeBlueprint (clone bp k).1 = observeBlueprint bp ∧
      (∀ wr : HWrite, wr.tag ∈ (clone bp k).1.tags → hwrite wr bp = bp) ∧
      (∀ wr : HWrite, wr.tag ∈ bp.tags → hwrite wr (clone bp k).1 = (clone bp k).1) := by
  refine ⟨clone_observe bp k, ?_, ?_⟩
  · intro wr hw
    refine hwrite_frame wr bp (fun hmem => ?_)
    have h1 := h _ hmem
    have h2 := clone_tags bp k _ hw
    omega
  · intro wr hw
    refine hwrite_frame wr (clone bp k).1 (fun hmem => ?_)
    have h1 := h _ hw
    have h2 := clone_tags bp k _ hmem
    omega

/-- A concrete tagged graph for the clone-independence witness: an input
neuron and an lstm neuron with one connection cell and one gate-weight
vector, with tags 0 .. 6. -/
def hG : HBlueprint :=
  { tableTag := 0,
    table :=
      [(1, { nid := 1, ty := "input", value := 0, bias := 0, activation := "linear",
             cellState := 0, connsTag := 3, conns := [], gates := [] }),
       (2, { nid := 2, ty := "lstm", value := 0, bias := 0, activation := "sigmoid",
             cellState := 0, connsTag := 4, conns := [⟨5, 1, 1 / 2⟩],
             gates := [⟨"input", 6, [1 / 4]⟩] })],
    inTag := 1, inputNodes := [1], outTag := 2, outputNodes := [2] }

/-- C1 witness: the clone-independence statement instantiated on `hG` with
counter 10. -/
theorem c1_clone_independence_witness :
    (∀ t ∈ hG.tags, t < 10) ∧
      (observeBlueprint (clone hG 10).1 = observeBlueprint hG ∧
        (∀ wr : HWrite, wr.tag ∈ (clone hG 10).1.tags → hwrite wr hG = hG) ∧
        (∀ wr : HWrite, wr.tag ∈ hG.tags → hwrite wr (clone hG 10).1 = (clone hG 10).1)) :=
  ⟨by decide, c1_clone_independence hG 10 (by decide)⟩

end Anvil
